import Mathlib

/-!
Shallow embedding of `src/main.rs` (the `NetworkInfo::analyze_network`
subnet analyzer) and proofs about it.

Machine integers are modelled as `Nat`. Rust's `u32` bit operations keep
their meaning on values below `2 ^ 32`; truncations (`as u8`, wrapped
shifts) are made explicit with `% 256` / `% 2 ^ 32`.

The repository is compiled and tested under Rust's default (debug)
profile, where arithmetic overflow, shift amounts of at least the bit
width, and `Option::unwrap` on `None` all abort the program. Such an
abort is modelled as `Option.none`: `analyze_network` returns
`some info` exactly when the Rust function returns normally.
-/

namespace Ipv4Exercise

/-- Big-endian bytes of an address value, as produced by
`Ipv4Addr::octets` (`o0` is the most significant byte). -/
structure Octets where
  o0 : Nat
  o1 : Nat
  o2 : Nat
  o3 : Nat
deriving DecidableEq, Repr

/-- Rust `Ipv4Addr::octets()` on the numeric value of the address:
each byte is the matching 8-bit slice of the 32-bit value. -/
def toOctets (ip : Nat) : Octets :=
  ⟨ip / 2 ^ 24 % 256, ip / 2 ^ 16 % 256, ip / 2 ^ 8 % 256, ip % 256⟩

/-- Rust `Ipv4Addr::from([u8; 4])` / `u32::from(ipv4)`: big-endian
reassembly of the four bytes. -/
def ofOctets (o : Octets) : Nat :=
  o.o0 * 2 ^ 24 + o.o1 * 2 ^ 16 + o.o2 * 2 ^ 8 + o.o3

/-- Rust `u32::MAX`. -/
def u32Max : Nat := 2 ^ 32 - 1

/-- Rust `a - b` on `u8` under debug-profile overflow checks: aborts
(`none`) when the subtraction would underflow. -/
def subU8 (a b : Nat) : Option Nat :=
  if b ≤ a then some (a - b) else none

/-- Rust `a + b` on `u8` under debug-profile overflow checks: aborts
(`none`) when the sum exceeds 255. -/
def addU8 (a b : Nat) : Option Nat :=
  if a + b ≤ 255 then some (a + b) else none

/-- Rust `u8::saturating_add`. -/
def satAddU8 (a b : Nat) : Nat := min (a + b) 255

/-- Rust `x << n` on `u32` under debug-profile checks: a shift amount
of 32 or more aborts (`none`); otherwise the result is truncated to 32
bits. -/
def shlU32 (x n : Nat) : Option Nat :=
  if n < 32 then some (x <<< n % 2 ^ 32) else none

/-- Rust `!x` on `u32`: bitwise complement, i.e. xor with `u32::MAX`. -/
def notU32 (x : Nat) : Nat := x ^^^ u32Max

/-- Rust `a - b` on `u32` under debug-profile overflow checks. -/
def subU32 (a b : Nat) : Option Nat :=
  if b ≤ a then some (a - b) else none

/-- Rust `b.pow(e)` on `u32` under debug-profile overflow checks:
aborts (`none`) when the power exceeds `u32::MAX`. -/
def powU32 (b e : Nat) : Option Nat :=
  if b ^ e ≤ u32Max then some (b ^ e) else none

/-- The `is_private` match of `analyze_network`:
`(10, _) => true`, `(172, 16..32) => true`, `(192, 168) => true`,
otherwise false. -/
def isPrivateOf (o0 o1 : Nat) : Bool :=
  if o0 = 10 then true
  else if o0 = 172 ∧ 16 ≤ o1 ∧ o1 < 32 then true
  else if o0 = 192 ∧ o1 = 168 then true
  else false

/-- The `ip_class` match of `analyze_network` on the first octet:
`1..128 => 'A'`, `128..192 => 'B'`, `192..224 => 'C'`,
`224..240 => 'D'`, `_ => 'E'`. -/
def ipClassOf (o0 : Nat) : Char :=
  if 1 ≤ o0 ∧ o0 < 128 then 'A'
  else if 128 ≤ o0 ∧ o0 < 192 then 'B'
  else if 192 ≤ o0 ∧ o0 < 224 then 'C'
  else if 224 ≤ o0 ∧ o0 < 240 then 'D'
  else 'E'

/-- The mask expression `u32::MAX << (32 - cidr)` of `analyze_network`:
`32 - cidr` is a `u8` subtraction, the shift a `u32` shift, both under
debug-profile checks. -/
def maskOf (cidr : Nat) : Option Nat :=
  (subU8 32 cidr).bind (fun n => shlU32 u32Max n)

/-- The `NetworkInfo` struct of `src/main.rs`, with addresses as
numeric 32-bit values. -/
structure NetworkInfo where
  ip_address : Nat
  cidr : Nat
  subnet_mask : Nat
  ip_class : Char
  is_private : Bool
  network_address : Nat
  broadcast_address : Option Nat
  host_range_start : Option Nat
  host_range_end : Option Nat
  usable_hosts : Nat
  dhcp_range_start : Option Nat
  dhcp_range_end : Option Nat
  default_gateway : Option Nat
  needs_nat : Bool
deriving DecidableEq, Repr

/-- The `broadcast_address` binding of `analyze_network`:
`match ip_class { 'D' | 'E' => None, _ => Some(ip | !mask) }` where the
mask is recomputed. The outer `Option` is the abort channel. -/
def broadcastOf (ip cidr : Nat) (ip_class : Char) : Option (Option Nat) :=
  if ip_class == 'D' || ip_class == 'E' then some none
  else (maskOf cidr).bind fun mask => some (some (ip ||| notU32 mask))

/-- The `network_address` binding of `analyze_network`: `ip & mask`
with the mask recomputed. -/
def networkOf (ip cidr : Nat) : Option Nat :=
  (maskOf cidr).bind fun mask => some (ip &&& mask)

/-- The `host_range_start` binding of `analyze_network`: `None` for
`/31`, `/32` and classes D/E, otherwise the network address with its
last octet incremented by `if cidr < 32 { 1 } else { 0 }` (checked `u8`
add). -/
def hostRangeStartOf (cidr : Nat) (ip_class : Char)
    (network_address : Nat) : Option (Option Nat) :=
  if cidr == 31 || cidr == 32 then some none
  else if ip_class == 'D' || ip_class == 'E' then some none
  else
    let o := toOctets network_address
    (addU8 o.o3 (if cidr < 32 then 1 else 0)).bind fun o3 =>
    some (some (ofOctets ⟨o.o0, o.o1, o.o2, o3⟩))

/-- The `host_range_end` binding of `analyze_network`: `None` for
`/31`, `/32` and classes D/E, otherwise `broadcast_address.unwrap()`
(abort on `None`) with its last octet decremented (checked `u8`
subtraction). -/
def hostRangeEndOf (cidr : Nat) (ip_class : Char)
    (broadcast_address : Option Nat) : Option (Option Nat) :=
  if cidr == 31 || cidr == 32 then some none
  else if ip_class == 'D' || ip_class == 'E' then some none
  else
    broadcast_address.bind fun b =>
    let o := toOctets b
    (subU8 o.o3 (if cidr < 32 then 1 else 0)).bind fun o3 =>
    some (some (ofOctets ⟨o.o0, o.o1, o.o2, o3⟩))

/-- The `usable_hosts` binding of `analyze_network`: 0 for classes D/E,
0 for `cidr > 30`, otherwise `2u32.pow(32 - cidr) - 2` under checked
`u32` arithmetic. -/
def usableHostsOf (cidr : Nat) (ip_class : Char) : Option Nat :=
  if ip_class == 'E' || ip_class == 'D' then some 0
  else if 30 < cidr then some 0
  else
    (subU32 32 cidr).bind fun e =>
    (powU32 2 e).bind fun p =>
    subU32 p 2

/-- The `dhcp_range_start` binding of `analyze_network`:
`host_range_start.unwrap()` with its last octet incremented by 9 when
`cidr < 25` (checked `u8` add), unchanged otherwise. -/
def dhcpStartOf (cidr : Nat) (ip_class : Char)
    (host_range_start : Option Nat) : Option (Option Nat) :=
  if cidr == 31 || cidr == 32 then some none
  else if ip_class == 'D' || ip_class == 'E' then some none
  else
    host_range_start.bind fun h =>
    let o := toOctets h
    (if cidr < 25 then addU8 o.o3 9 else some o.o3).bind fun o3 =>
    some (some (ofOctets ⟨o.o0, o.o1, o.o2, o3⟩))

/-- The `dhcp_range_end` binding of `analyze_network`:
`dhcp_range_start.unwrap()` with `saturating_add(90)` applied to its
last octet. -/
def dhcpEndOf (cidr : Nat) (ip_class : Char)
    (dhcp_range_start : Option Nat) : Option (Option Nat) :=
  if cidr == 31 || cidr == 32 then some none
  else if ip_class == 'D' || ip_class == 'E' then some none
  else
    dhcp_range_start.bind fun d =>
    let o := toOctets d
    some (some (ofOctets ⟨o.o0, o.o1, o.o2, satAddU8 o.o3 90⟩))

/-- The `default_gateway` binding of `analyze_network`:
`Some(host_range_start.unwrap())` outside the `None` cases. -/
def gatewayOf (cidr : Nat) (ip_class : Char)
    (host_range_start : Option Nat) : Option (Option Nat) :=
  if cidr == 31 || cidr == 32 then some none
  else if ip_class == 'D' || ip_class == 'E' then some none
  else host_range_start.bind fun h => some (some h)

/-- `NetworkInfo::analyze_network` from `src/main.rs`, with each `let`
binding in source order (one helper definition per binding). A
debug-profile abort anywhere (shift-amount overflow, `u8`/`u32`
arithmetic overflow, `unwrap` of `None`) makes the whole call `none`. -/
def analyze_network (ip_address cidr : Nat) : Option NetworkInfo :=
  let octets := toOctets ip_address
  let is_private := isPrivateOf octets.o0 octets.o1
  let ip_class := ipClassOf octets.o0
  (maskOf cidr).bind fun subnet_mask =>
  (broadcastOf ip_address cidr ip_class).bind fun broadcast_address =>
  (networkOf ip_address cidr).bind fun network_address =>
  (hostRangeStartOf cidr ip_class network_address).bind fun host_range_start =>
  (hostRangeEndOf cidr ip_class broadcast_address).bind fun host_range_end =>
  (usableHostsOf cidr ip_class).bind fun usable_hosts =>
  (dhcpStartOf cidr ip_class host_range_start).bind fun dhcp_range_start =>
  (dhcpEndOf cidr ip_class dhcp_range_start).bind fun dhcp_range_end =>
  (gatewayOf cidr ip_class host_range_start).bind fun default_gateway =>
  some { ip_address, cidr, subnet_mask, ip_class, is_private,
         network_address, broadcast_address, host_range_start,
         host_range_end, usable_hosts, dhcp_range_start, dhcp_range_end,
         default_gateway, needs_nat := is_private }

/- Arithmetic facts about the embedded operations. -/

theorem ofOctets_set3 {ip : Nat} (hip : ip < 2 ^ 32) (v : Nat) :
    ofOctets ⟨(toOctets ip).o0, (toOctets ip).o1, (toOctets ip).o2, v⟩
      = ip - ip % 256 + v := by
  simp only [ofOctets, toOctets]
  omega

theorem toOctets_o3 (ip : Nat) : (toOctets ip).o3 = ip % 256 := rfl

theorem maskOf_eq {c : Nat} (h1 : 1 ≤ c) (h2 : c ≤ 32) :
    maskOf c = some (2 ^ 32 - 2 ^ (32 - c)) := by
  have hP2 : (2:Nat) ^ (32 - c) ≤ 2 ^ 31 :=
    Nat.pow_le_pow_right (by norm_num) (by omega)
  have hP1 : (1:Nat) ≤ 2 ^ (32 - c) := Nat.one_le_two_pow
  simp only [maskOf, subU8, shlU32, u32Max, if_pos h2,
    if_pos (show 32 - c < 32 by omega), Option.some_bind,
    Nat.shiftLeft_eq, Option.some.injEq]
  generalize hP : (2:Nat) ^ (32 - c) = P at *
  have h32 : (2:Nat) ^ 32 = 4294967296 := by norm_num
  have h31 : (2:Nat) ^ 31 = 2147483648 := by norm_num
  rw [h32, h31] at *
  omega

theorem land_mask {ip m : Nat} (hip : ip < 2 ^ 32) (hm : m ≤ 32) :
    ip &&& (2 ^ 32 - 2 ^ m) = ip / 2 ^ m * 2 ^ m := by
  have hpow : (2:Nat) ^ (32 - m) * 2 ^ m = 2 ^ 32 := by
    rw [← pow_add]; congr 1; omega
  have hrw : (2:Nat) ^ 32 - 2 ^ m = (2 ^ (32 - m) - 1) <<< m := by
    rw [Nat.shiftLeft_eq, Nat.sub_mul, one_mul, hpow]
  have hdiv : ip / 2 ^ m * 2 ^ m = (ip >>> m) <<< m := by
    rw [Nat.shiftRight_eq_div_pow, Nat.shiftLeft_eq]
  rw [hrw, hdiv]
  apply Nat.eq_of_testBit_eq
  intro i
  simp only [Nat.testBit_and, Nat.testBit_shiftLeft, Nat.testBit_shiftRight,
    Nat.testBit_two_pow_sub_one]
  by_cases hmi : m ≤ i
  · by_cases hi32 : i < 32
    · have : m + (i - m) = i := by omega
      simp [hmi, this, show i - m < 32 - m by omega]
    · have hbit : ip.testBit i = false :=
        Nat.testBit_lt_two_pow
          (lt_of_lt_of_le hip (Nat.pow_le_pow_right (by norm_num) (by omega)))
      have : m + (i - m) = i := by omega
      simp [hmi, this, hbit, show ¬(i - m < 32 - m) by omega]
  · simp [hmi]

theorem lor_ones_mod (x n : Nat) : (x ||| (2 ^ n - 1)) % 2 ^ n = 2 ^ n - 1 := by
  apply Nat.eq_of_testBit_eq
  intro i
  simp only [Nat.testBit_mod_two_pow, Nat.testBit_or, Nat.testBit_two_pow_sub_one]
  by_cases h : i < n <;> simp [h]

theorem lor_ones_div (x n : Nat) : (x ||| (2 ^ n - 1)) / 2 ^ n = x / 2 ^ n := by
  rw [← Nat.shiftRight_eq_div_pow, ← Nat.shiftRight_eq_div_pow]
  apply Nat.eq_of_testBit_eq
  intro i
  simp only [Nat.testBit_shiftRight, Nat.testBit_or, Nat.testBit_two_pow_sub_one]
  simp [show ¬(n + i < n) by omega]

theorem lor_ones (x n : Nat) :
    x ||| (2 ^ n - 1) = x / 2 ^ n * 2 ^ n + (2 ^ n - 1) := by
  have h := Nat.div_add_mod (x ||| (2 ^ n - 1)) (2 ^ n)
  rw [lor_ones_mod, lor_ones_div] at h
  rw [Nat.mul_comm (2 ^ n) (x / 2 ^ n)] at h
  omega

theorem notU32_mask {m : Nat} (hm : m ≤ 32) :
    notU32 (2 ^ 32 - 2 ^ m) = 2 ^ m - 1 := by
  have hpow : (2:Nat) ^ (32 - m) * 2 ^ m = 2 ^ 32 := by
    rw [← pow_add]; congr 1; omega
  have hrw : (2:Nat) ^ 32 - 2 ^ m = (2 ^ (32 - m) - 1) <<< m := by
    rw [Nat.shiftLeft_eq, Nat.sub_mul, one_mul, hpow]
  rw [notU32, u32Max, hrw]
  apply Nat.eq_of_testBit_eq
  intro i
  simp only [Nat.testBit_xor, Nat.testBit_shiftLeft,
    Nat.testBit_two_pow_sub_one]
  by_cases him : m ≤ i
  · by_cases hi32 : i < 32
    · simp [him, hi32, show i - m < 32 - m by omega]
    · simp [him, hi32, show ¬(i - m < 32 - m) by omega]
  · simp [him, show i < 32 by omega, show i < m by omega]

theorem mul_pow_mod_256_le {q m : Nat} (hm : m ≤ 8) :
    q * 2 ^ m % 256 ≤ 256 - 2 ^ m := by
  have h : (256:Nat) = 2 ^ (8 - m) * 2 ^ m := by
    rw [← pow_add, show 8 - m + m = 8 from by omega]; norm_num
  rw [h, Nat.mul_mod_mul_right]
  have hlt : q % 2 ^ (8 - m) < 2 ^ (8 - m) := Nat.mod_lt _ (Nat.two_pow_pos _)
  calc q % 2 ^ (8 - m) * 2 ^ m ≤ (2 ^ (8 - m) - 1) * 2 ^ m :=
        Nat.mul_le_mul_right _ (by omega)
    _ = 2 ^ (8 - m) * 2 ^ m - 2 ^ m := by rw [Nat.sub_mul, one_mul]

theorem mul_pow_mod_256_eq_zero {q m : Nat} (hm : 8 ≤ m) :
    q * 2 ^ m % 256 = 0 := by
  have hdvd : (256:Nat) ∣ q * 2 ^ m := by
    have h8 : (2:Nat) ^ 8 ∣ 2 ^ m := pow_dvd_pow 2 hm
    exact Dvd.dvd.mul_left (by simpa using h8) q
  omega

theorem net_mod_256_le {q m : Nat} (h2 : 2 ≤ m) : q * 2 ^ m % 256 ≤ 252 := by
  rcases le_or_lt m 8 with h | h
  · have hb := mul_pow_mod_256_le (q := q) h
    have h4 : (4:Nat) ≤ 2 ^ m :=
      le_trans (by norm_num) (Nat.pow_le_pow_right (by norm_num) h2)
    omega
  · rw [mul_pow_mod_256_eq_zero (le_of_lt h)]; omega

theorem bcast_mod_256_pos {q m : Nat} (h2 : 2 ≤ m) :
    1 ≤ (q * 2 ^ m + (2 ^ m - 1)) % 256 := by
  have h4 : (4:Nat) ≤ 2 ^ m := by
    calc (4:Nat) = 2 ^ 2 := by norm_num
      _ ≤ 2 ^ m := Nat.pow_le_pow_right (by norm_num) h2
  rcases le_or_lt m 8 with h | h
  · have hb := mul_pow_mod_256_le (q := q) h
    have hlt : (2:Nat) ^ m ≤ 256 := by
      calc (2:Nat) ^ m ≤ 2 ^ 8 := Nat.pow_le_pow_right (by norm_num) h
        _ = 256 := by norm_num
    omega
  · have hz := mul_pow_mod_256_eq_zero (q := q) (le_of_lt h)
    have hdvd : (256:Nat) ∣ 2 ^ m := by
      have h8 : (2:Nat) ^ 8 ∣ 2 ^ m := pow_dvd_pow 2 (le_of_lt h)
      simpa using h8
    omega

/- Characterizations of the per-binding helpers on the valid domain. -/

theorem cond3132_false {cidr : Nat} (h : cidr ≤ 30) :
    (cidr == 31 || cidr == 32) = false := by
  simp only [Bool.or_eq_false_iff, beq_eq_false_iff_ne, ne_eq]
  omega

theorem condDE_false {c : Char} (hD : c ≠ 'D') (hE : c ≠ 'E') :
    (c == 'D' || c == 'E') = false := by
  simp [hD, hE]

theorem condED_false {c : Char} (hD : c ≠ 'D') (hE : c ≠ 'E') :
    (c == 'E' || c == 'D') = false := by
  simp [hD, hE]

theorem networkOf_eq {ip cidr : Nat} (hip : ip < 2 ^ 32)
    (h1 : 1 ≤ cidr) (h2 : cidr ≤ 32) :
    networkOf ip cidr = some (ip / 2 ^ (32 - cidr) * 2 ^ (32 - cidr)) := by
  rw [networkOf, maskOf_eq h1 h2, Option.some_bind,
    land_mask hip (by omega)]

theorem broadcastOf_de {ip cidr : Nat} {c : Char}
    (h : c = 'D' ∨ c = 'E') : broadcastOf ip cidr c = some none := by
  rcases h with h | h <;> simp [broadcastOf, h]

theorem broadcastOf_eq {ip cidr : Nat} {c : Char}
    (hD : c ≠ 'D') (hE : c ≠ 'E') (h1 : 1 ≤ cidr) (h2 : cidr ≤ 32) :
    broadcastOf ip cidr c = some (some
      (ip / 2 ^ (32 - cidr) * 2 ^ (32 - cidr) + (2 ^ (32 - cidr) - 1))) := by
  rw [broadcastOf, condDE_false hD hE, maskOf_eq h1 h2]
  simp only [Bool.false_eq_true, if_false, Option.some_bind,
    notU32_mask (show 32 - cidr ≤ 32 by omega), lor_ones]

theorem hostRangeStartOf_none {cidr : Nat} {c : Char} {N : Nat}
    (h : cidr = 31 ∨ cidr = 32 ∨ c = 'D' ∨ c = 'E') :
    hostRangeStartOf cidr c N = some none := by
  rcases h with h | h | h | h <;> simp [hostRangeStartOf, h]

theorem hostRangeStartOf_eq {cidr : Nat} {c : Char} {N : Nat}
    (hc : cidr ≤ 30) (hD : c ≠ 'D') (hE : c ≠ 'E')
    (hN : N < 2 ^ 32) (hmod : N % 256 ≤ 252) :
    hostRangeStartOf cidr c N = some (some (N + 1)) := by
  rw [hostRangeStartOf, cond3132_false hc, condDE_false hD hE]
  simp only [Bool.false_eq_true, if_false,
    if_pos (show cidr < 32 by omega), toOctets_o3]
  rw [addU8, if_pos (by omega), Option.some_bind, ofOctets_set3 hN,
    show N - N % 256 + (N % 256 + 1) = N + 1 from by omega]

theorem hostRangeEndOf_none {cidr : Nat} {c : Char} {b : Option Nat}
    (h : cidr = 31 ∨ cidr = 32 ∨ c = 'D' ∨ c = 'E') :
    hostRangeEndOf cidr c b = some none := by
  rcases h with h | h | h | h <;> simp [hostRangeEndOf, h]

theorem hostRangeEndOf_eq {cidr : Nat} {c : Char} {B : Nat}
    (hc : cidr ≤ 30) (hD : c ≠ 'D') (hE : c ≠ 'E')
    (hB : B < 2 ^ 32) (hmod : 1 ≤ B % 256) :
    hostRangeEndOf cidr c (some B) = some (some (B - 1)) := by
  rw [hostRangeEndOf, cond3132_false hc, condDE_false hD hE]
  simp only [Bool.false_eq_true, if_false, Option.some_bind,
    if_pos (show cidr < 32 by omega), toOctets_o3]
  rw [subU8, if_pos hmod, Option.some_bind, ofOctets_set3 hB,
    show B - B % 256 + (B % 256 - 1) = B - 1 from by omega]

theorem usableHostsOf_de {cidr : Nat} {c : Char}
    (h : c = 'D' ∨ c = 'E') : usableHostsOf cidr c = some 0 := by
  rcases h with h | h <;> simp [usableHostsOf, h]

theorem usableHostsOf_gt30 {cidr : Nat} {c : Char}
    (hD : c ≠ 'D') (hE : c ≠ 'E') (h : 30 < cidr) :
    usableHostsOf cidr c = some 0 := by
  rw [usableHostsOf, condED_false hD hE]
  simp [h]

theorem usableHostsOf_eq {cidr : Nat} {c : Char}
    (hD : c ≠ 'D') (hE : c ≠ 'E') (h1 : 1 ≤ cidr) (hc : cidr ≤ 30) :
    usableHostsOf cidr c = some (2 ^ (32 - cidr) - 2) := by
  have hple : (2:Nat) ^ (32 - cidr) ≤ 2 ^ 31 :=
    Nat.pow_le_pow_right (by norm_num) (by omega)
  have hpge : (4:Nat) ≤ 2 ^ (32 - cidr) := by
    calc (4:Nat) = 2 ^ 2 := by norm_num
      _ ≤ 2 ^ (32 - cidr) := Nat.pow_le_pow_right (by norm_num) (by omega)
  rw [usableHostsOf, condED_false hD hE]
  simp only [Bool.false_eq_true, if_false, if_neg (show ¬30 < cidr by omega)]
  rw [subU32, if_pos (show cidr ≤ 32 by omega), Option.some_bind,
    powU32, if_pos (show (2:Nat) ^ (32 - cidr) ≤ u32Max from by
      simp only [u32Max]; omega), Option.some_bind,
    subU32, if_pos (by omega)]

theorem dhcpStartOf_none {cidr : Nat} {c : Char} {h0 : Option Nat}
    (h : cidr = 31 ∨ cidr = 32 ∨ c = 'D' ∨ c = 'E') :
    dhcpStartOf cidr c h0 = some none := by
  rcases h with h | h | h | h <;> simp [dhcpStartOf, h]

theorem dhcpStartOf_lt25 {cidr : Nat} {c : Char} {s : Nat}
    (hc : cidr < 25) (hD : c ≠ 'D') (hE : c ≠ 'E')
    (hs : s < 2 ^ 32) (hmod : s % 256 ≤ 246) :
    dhcpStartOf cidr c (some s) = some (some (s + 9)) := by
  rw [dhcpStartOf, cond3132_false (by omega), condDE_false hD hE]
  simp only [Bool.false_eq_true, if_false, Option.some_bind,
    if_pos hc, toOctets_o3]
  rw [addU8, if_pos (by omega), Option.some_bind, ofOctets_set3 hs,
    show s - s % 256 + (s % 256 + 9) = s + 9 from by omega]

theorem dhcpStartOf_ge25 {cidr : Nat} {c : Char} {s : Nat}
    (hc25 : 25 ≤ cidr) (hc : cidr ≤ 30) (hD : c ≠ 'D') (hE : c ≠ 'E')
    (hs : s < 2 ^ 32) :
    dhcpStartOf cidr c (some s) = some (some s) := by
  rw [dhcpStartOf, cond3132_false hc, condDE_false hD hE]
  simp only [Bool.false_eq_true, if_false, Option.some_bind,
    if_neg (show ¬cidr < 25 by omega), toOctets_o3]
  rw [ofOctets_set3 hs, show s - s % 256 + s % 256 = s from by omega]

theorem dhcpEndOf_none {cidr : Nat} {c : Char} {d0 : Option Nat}
    (h : cidr = 31 ∨ cidr = 32 ∨ c = 'D' ∨ c = 'E') :
    dhcpEndOf cidr c d0 = some none := by
  rcases h with h | h | h | h <;> simp [dhcpEndOf, h]

theorem dhcpEndOf_eq {cidr : Nat} {c : Char} {d : Nat}
    (hc : cidr ≤ 30) (hD : c ≠ 'D') (hE : c ≠ 'E') (hd : d < 2 ^ 32) :
    dhcpEndOf cidr c (some d) =
      some (some (d - d % 256 + min (d % 256 + 90) 255)) := by
  rw [dhcpEndOf, cond3132_false hc, condDE_false hD hE]
  simp only [Bool.false_eq_true, if_false, Option.some_bind, satAddU8,
    toOctets_o3]
  rw [ofOctets_set3 hd]

theorem gatewayOf_none {cidr : Nat} {c : Char} {h0 : Option Nat}
    (h : cidr = 31 ∨ cidr = 32 ∨ c = 'D' ∨ c = 'E') :
    gatewayOf cidr c h0 = some none := by
  rcases h with h | h | h | h <;> simp [gatewayOf, h]

theorem gatewayOf_eq {cidr : Nat} {c : Char} {s : Nat}
    (hc : cidr ≤ 30) (hD : c ≠ 'D') (hE : c ≠ 'E') :
    gatewayOf cidr c (some s) = some (some s) := by
  rw [gatewayOf, cond3132_false hc, condDE_false hD hE]
  simp only [Bool.false_eq_true, if_false, Option.some_bind]

/-- Closed form of `analyze_network` on its non-aborting domain:
every valid address together with a prefix length from 1 to 32. -/
theorem analyze_network_eq {ip cidr : Nat} (hip : ip < 2 ^ 32)
    (h1 : 1 ≤ cidr) (h2 : cidr ≤ 32) :
    analyze_network ip cidr = some
      { ip_address := ip
        cidr := cidr
        subnet_mask := 2 ^ 32 - 2 ^ (32 - cidr)
        ip_class := ipClassOf (toOctets ip).o0
        is_private := isPrivateOf (toOctets ip).o0 (toOctets ip).o1
        network_address := ip / 2 ^ (32 - cidr) * 2 ^ (32 - cidr)
        broadcast_address :=
          if ipClassOf (toOctets ip).o0 = 'D' ∨ ipClassOf (toOctets ip).o0 = 'E'
          then none
          else some (ip / 2 ^ (32 - cidr) * 2 ^ (32 - cidr) + (2 ^ (32 - cidr) - 1))
        host_range_start :=
          if 30 < cidr ∨ ipClassOf (toOctets ip).o0 = 'D' ∨ ipClassOf (toOctets ip).o0 = 'E'
          then none
          else some (ip / 2 ^ (32 - cidr) * 2 ^ (32 - cidr) + 1)
        host_range_end :=
          if 30 < cidr ∨ ipClassOf (toOctets ip).o0 = 'D' ∨ ipClassOf (toOctets ip).o0 = 'E'
          then none
          else some (ip / 2 ^ (32 - cidr) * 2 ^ (32 - cidr) + (2 ^ (32 - cidr) - 2))
        usable_hosts :=
          if ipClassOf (toOctets ip).o0 = 'D' ∨ ipClassOf (toOctets ip).o0 = 'E' then 0
          else if 30 < cidr then 0 else 2 ^ (32 - cidr) - 2
        dhcp_range_start :=
          if 30 < cidr ∨ ipClassOf (toOctets ip).o0 = 'D' ∨ ipClassOf (toOctets ip).o0 = 'E'
          then none
          else if cidr < 25
          then some (ip / 2 ^ (32 - cidr) * 2 ^ (32 - cidr) + 10)
          else some (ip / 2 ^ (32 - cidr) * 2 ^ (32 - cidr) + 1)
        dhcp_range_end :=
          if 30 < cidr ∨ ipClassOf (toOctets ip).o0 = 'D' ∨ ipClassOf (toOctets ip).o0 = 'E'
          then none
          else if cidr < 25
          then some (ip / 2 ^ (32 - cidr) * 2 ^ (32 - cidr) + 100)
          else some (ip / 2 ^ (32 - cidr) * 2 ^ (32 - cidr) + 1 +
            min 90 (254 - ip / 2 ^ (32 - cidr) * 2 ^ (32 - cidr) % 256))
        default_gateway :=
          if 30 < cidr ∨ ipClassOf (toOctets ip).o0 = 'D' ∨ ipClassOf (toOctets ip).o0 = 'E'
          then none
          else some (ip / 2 ^ (32 - cidr) * 2 ^ (32 - cidr) + 1)
        needs_nat := isPrivateOf (toOctets ip).o0 (toOctets ip).o1 } := by
  set c := ipClassOf (toOctets ip).o0 with hcdef
  set m := 32 - cidr with hmdef
  set N := ip / 2 ^ m * 2 ^ m with hNdef
  simp only [analyze_network]
  rw [maskOf_eq h1 h2, Option.some_bind]
  by_cases hDE : c = 'D' ∨ c = 'E'
  · rw [broadcastOf_de hDE, Option.some_bind,
      networkOf_eq hip h1 h2, Option.some_bind,
      hostRangeStartOf_none (by tauto), Option.some_bind,
      hostRangeEndOf_none (by tauto), Option.some_bind,
      usableHostsOf_de hDE, Option.some_bind,
      dhcpStartOf_none (by tauto), Option.some_bind,
      dhcpEndOf_none (by tauto), Option.some_bind,
      gatewayOf_none (by tauto), Option.some_bind]
    simp only [if_pos hDE, if_pos (show 30 < cidr ∨ c = 'D' ∨ c = 'E' from Or.inr hDE)]
  · push_neg at hDE
    obtain ⟨hD, hE⟩ := hDE
    by_cases h30 : 30 < cidr
    · have h3132 : cidr = 31 ∨ cidr = 32 := by omega
      rw [broadcastOf_eq hD hE h1 h2, Option.some_bind,
        networkOf_eq hip h1 h2, Option.some_bind,
        hostRangeStartOf_none (by tauto), Option.some_bind,
        hostRangeEndOf_none (by tauto), Option.some_bind,
        usableHostsOf_gt30 hD hE h30, Option.some_bind,
        dhcpStartOf_none (by tauto), Option.some_bind,
        dhcpEndOf_none (by tauto), Option.some_bind,
        gatewayOf_none (by tauto), Option.some_bind]
      simp only [if_neg (show ¬(c = 'D' ∨ c = 'E') from by tauto),
        if_pos (show 30 < cidr ∨ c = 'D' ∨ c = 'E' from Or.inl h30),
        if_pos h30]
    · have hc30 : cidr ≤ 30 := by omega
      have hm2 : 2 ≤ m := by omega
      have hNle : N ≤ ip := Nat.div_mul_le_self ip (2 ^ m)
      have hNlt : N < 2 ^ 32 := lt_of_le_of_lt hNle hip
      have hNmod : N % 256 ≤ 252 := by rw [hNdef]; exact net_mod_256_le hm2
      have hpow : (2:Nat) ^ (32 - m) * 2 ^ m = 2 ^ 32 := by
        rw [← pow_add, show 32 - m + m = 32 from by omega]
      have hq : ip / 2 ^ m < 2 ^ (32 - m) := by
        apply Nat.div_lt_of_lt_mul
        rw [Nat.mul_comm, hpow]; exact hip
      have hNub : N + 2 ^ m ≤ 2 ^ 32 := by
        rw [hNdef, ← hpow]
        calc ip / 2 ^ m * 2 ^ m + 2 ^ m = (ip / 2 ^ m + 1) * 2 ^ m := by ring
          _ ≤ 2 ^ (32 - m) * 2 ^ m := Nat.mul_le_mul_right _ (by omega)
      have hp1 : (4:Nat) ≤ 2 ^ m := by
        calc (4:Nat) = 2 ^ 2 := by norm_num
          _ ≤ 2 ^ m := Nat.pow_le_pow_right (by norm_num) hm2
      have hBlt : N + (2 ^ m - 1) < 2 ^ 32 := by omega
      have hBmod : 1 ≤ (N + (2 ^ m - 1)) % 256 := by
        rw [hNdef]; exact bcast_mod_256_pos hm2
      have hcondF : ¬(30 < cidr ∨ c = 'D' ∨ c = 'E') := by tauto
      rw [broadcastOf_eq hD hE h1 h2, Option.some_bind,
        networkOf_eq hip h1 h2, Option.some_bind,
        hostRangeStartOf_eq hc30 hD hE hNlt hNmod, Option.some_bind,
        hostRangeEndOf_eq hc30 hD hE hBlt hBmod, Option.some_bind,
        usableHostsOf_eq hD hE h1 hc30, Option.some_bind,
        show N + (2 ^ m - 1) - 1 = N + (2 ^ m - 2) by omega]
      by_cases h25 : cidr < 25
      · have hm8 : 8 ≤ m := by omega
        have hNmod0 : N % 256 = 0 := by
          rw [hNdef]; exact mul_pow_mod_256_eq_zero hm8
        have h256 : (256:Nat) ≤ 2 ^ m := by
          calc (256:Nat) = 2 ^ 8 := by norm_num
            _ ≤ 2 ^ m := Nat.pow_le_pow_right (by norm_num) hm8
        rw [dhcpStartOf_lt25 h25 hD hE (by omega) (by omega), Option.some_bind,
          show N + 1 + 9 = N + 10 by omega,
          dhcpEndOf_eq hc30 hD hE (show N + 10 < 2 ^ 32 by omega), Option.some_bind,
          show N + 10 - (N + 10) % 256 + min ((N + 10) % 256 + 90) 255 = N + 100 by omega,
          gatewayOf_eq hc30 hD hE, Option.some_bind]
        simp only [if_neg hcondF, if_neg (show ¬(c = 'D' ∨ c = 'E') from by tauto),
          if_neg h30, if_pos h25]
      · rw [dhcpStartOf_ge25 (by omega) hc30 hD hE (by omega), Option.some_bind,
          dhcpEndOf_eq hc30 hD hE (show N + 1 < 2 ^ 32 by omega), Option.some_bind,
          show N + 1 - (N + 1) % 256 + min ((N + 1) % 256 + 90) 255
            = N + 1 + min 90 (254 - N % 256) by omega,
          gatewayOf_eq hc30 hD hE, Option.some_bind]
        simp only [if_neg hcondF, if_neg (show ¬(c = 'D' ∨ c = 'E') from by tauto),
          if_neg h30, if_neg h25]

/-- At prefix length 0 the call aborts: `32 - 0 = 32` and the mask
shift `u32::MAX << 32` overflows the `u32` width. -/
theorem analyze_network_zero (ip : Nat) : analyze_network ip 0 = none := by
  simp [analyze_network, maskOf, subU8, shlU32]

/-- For a prefix length above 32 the call aborts: the `u8` subtraction
`32 - cidr` underflows. -/
theorem analyze_network_gt32 (ip cidr : Nat) (h : 32 < cidr) :
    analyze_network ip cidr = none := by
  simp [analyze_network, maskOf, subU8, show ¬cidr ≤ 32 by omega]

/-- A returned `NetworkInfo` forces the prefix length into 1..32. -/
theorem analyze_some_bounds {ip cidr : Nat} {info : NetworkInfo}
    (h : analyze_network ip cidr = some info) : 1 ≤ cidr ∧ cidr ≤ 32 := by
  rcases Nat.eq_zero_or_pos cidr with h0 | h1
  · rw [h0, analyze_network_zero] at h; cases h
  · rcases le_or_lt cidr 32 with h2 | h2
    · exact ⟨h1, h2⟩
    · rw [analyze_network_gt32 _ _ h2] at h; cases h

/-- Bit `i` of the mask `2^32 - 2^m` is set exactly for
`m ≤ i < 32`. -/
theorem mask_testBit {m : Nat} (hm : m ≤ 32) (i : Nat) :
    (2 ^ 32 - 2 ^ m).testBit i = decide (m ≤ i ∧ i < 32) := by
  have hpow : (2:Nat) ^ (32 - m) * 2 ^ m = 2 ^ 32 := by
    rw [← pow_add, show 32 - m + m = 32 from by omega]
  have hrw : (2:Nat) ^ 32 - 2 ^ m = (2 ^ (32 - m) - 1) <<< m := by
    rw [Nat.shiftLeft_eq, Nat.sub_mul, one_mul, hpow]
  rw [hrw]
  simp only [Nat.testBit_shiftLeft, Nat.testBit_two_pow_sub_one]
  by_cases h : m ≤ i
  · by_cases h2 : i < 32
    · simp [h, h2, show i - m < 32 - m by omega]
    · simp [h, h2, show ¬(i - m < 32 - m) by omega]
  · simp [h, show ¬(m ≤ i ∧ i < 32) by omega]

/-- The classifier only ever produces the five class letters. -/
theorem ipClassOf_cases (o0 : Nat) :
    ipClassOf o0 = 'A' ∨ ipClassOf o0 = 'B' ∨ ipClassOf o0 = 'C' ∨
    ipClassOf o0 = 'D' ∨ ipClassOf o0 = 'E' := by
  unfold ipClassOf
  split_ifs <;> simp

/- Claim theorems. -/

/-- C1: the claim of totality on all prefix lengths 0–32 fails. At
prefix length 0 the mask shift `u32::MAX << 32` overflows and the call
aborts for every address (first conjunct); on prefix lengths 1–32 the
call does return a `NetworkInfo` for every IPv4 address (second
conjunct). -/
theorem C1_totality :
    (∀ ip, analyze_network ip 0 = none) ∧
    (∀ ip cidr, ip < 2 ^ 32 → 1 ≤ cidr → cidr ≤ 32 →
      (analyze_network ip cidr).isSome = true) := by
  constructor
  · intro ip
    simp [analyze_network, maskOf, subU8, shlU32]
  · intro ip cidr hip h1 h2
    rw [analyze_network_eq hip h1 h2]
    rfl

theorem C1_totality_witness :
    analyze_network 167772160 0 = none ∧
    (analyze_network 167772160 8).isSome = true :=
  ⟨C1_totality.1 167772160,
   C1_totality.2 167772160 8 (by decide) (by decide) (by decide)⟩

/-- C2: the mask claim fails at prefix length 0, where the code aborts
instead of producing the all-zero mask (first conjunct, at
192.168.1.0/0); on every returned result the `subnet_mask` field has
exactly the top `cidr` bits set: bit `i` is 1 iff
`32 - cidr ≤ i < 32` (second conjunct). -/
theorem C2_subnet_mask :
    analyze_network 3232235776 0 = none ∧
    (∀ ip cidr info, ip < 2 ^ 32 → analyze_network ip cidr = some info →
      ∀ i, info.subnet_mask.testBit i = decide (32 - cidr ≤ i ∧ i < 32)) := by
  constructor
  · decide
  · intro ip cidr info hip h i
    obtain ⟨hx1, hx2⟩ := analyze_some_bounds h
    rw [analyze_network_eq hip hx1 hx2, Option.some.injEq] at h
    subst h
    exact mask_testBit (by omega) i

theorem C2_subnet_mask_witness :
    analyze_network 3232235776 0 = none ∧
    ∀ i, (4294967040:Nat).testBit i = decide (32 - 24 ≤ i ∧ i < 32) := by
  refine ⟨C2_subnet_mask.1, fun i => ?_⟩
  have h := C2_subnet_mask.2 3232235776 24
    { ip_address := 3232235776, cidr := 24, subnet_mask := 4294967040,
      ip_class := 'C', is_private := true, network_address := 3232235776,
      broadcast_address := some 3232236031,
      host_range_start := some 3232235777,
      host_range_end := some 3232236030, usable_hosts := 254,
      dhcp_range_start := some 3232235786,
      dhcp_range_end := some 3232235876,
      default_gateway := some 3232235777, needs_nat := true }
    (by decide) (by decide) i
  exact h

/-- C3: the usable-host claim fails at prefix length 0, where the code
aborts (first conjunct, at 10.1.2.3/0, where the claim demands
`2^32 - 2`); on every returned result `usable_hosts` is 0 for prefix
lengths 31 and 32 and for classes D and E, and `2^(32-cidr) - 2`
otherwise (second conjunct). -/
theorem C3_usable_hosts :
    analyze_network 167838211 0 = none ∧
    (∀ ip cidr info, ip < 2 ^ 32 → analyze_network ip cidr = some info →
      info.usable_hosts =
        if cidr = 31 ∨ cidr = 32 ∨ info.ip_class = 'D' ∨ info.ip_class = 'E'
        then 0 else 2 ^ (32 - cidr) - 2) := by
  constructor
  · decide
  · intro ip cidr info hip h
    obtain ⟨hx1, hx2⟩ := analyze_some_bounds h
    rw [analyze_network_eq hip hx1 hx2, Option.some.injEq] at h
    subst h
    dsimp only
    by_cases hDE : ipClassOf (toOctets ip).o0 = 'D' ∨ ipClassOf (toOctets ip).o0 = 'E'
    · rw [if_pos hDE, if_pos (by tauto)]
    · rw [if_neg hDE]
      by_cases h30 : 30 < cidr
      · rw [if_pos h30, if_pos (by omega)]
      · rw [if_neg h30, if_neg (by push_neg at hDE ⊢; exact ⟨by omega, by omega, hDE.1, hDE.2⟩)]

theorem C3_usable_hosts_witness :
    analyze_network 167838211 0 = none ∧
    (254:Nat) = if (24:Nat) = 31 ∨ (24:Nat) = 32 ∨ 'C' = 'D' ∨ 'C' = 'E'
      then 0 else 2 ^ (32 - 24) - 2 := by
  refine ⟨C3_usable_hosts.1, ?_⟩
  have h := C3_usable_hosts.2 3232235776 24
    { ip_address := 3232235776, cidr := 24, subnet_mask := 4294967040,
      ip_class := 'C', is_private := true, network_address := 3232235776,
      broadcast_address := some 3232236031,
      host_range_start := some 3232235777,
      host_range_end := some 3232236030, usable_hosts := 254,
      dhcp_range_start := some 3232235786,
      dhcp_range_end := some 3232235876,
      default_gateway := some 3232235777, needs_nat := true }
    (by decide) (by decide)
  exact h

/-- The fixture 192.168.1.0/24: the record returned by
`analyze_network`, used to instantiate theorems at a concrete input. -/
def info192 : NetworkInfo :=
  { ip_address := 3232235776, cidr := 24, subnet_mask := 4294967040,
    ip_class := 'C', is_private := true, network_address := 3232235776,
    broadcast_address := some 3232236031,
    host_range_start := some 3232235777,
    host_range_end := some 3232236030, usable_hosts := 254,
    dhcp_range_start := some 3232235786,
    dhcp_range_end := some 3232235876,
    default_gateway := some 3232235777, needs_nat := true }

/-- The fixture 0.1.2.3/8 (first octet 0): the record returned by
`analyze_network`. -/
def info0 : NetworkInfo :=
  { ip_address := 66051, cidr := 8, subnet_mask := 4278190080,
    ip_class := 'E', is_private := false, network_address := 0,
    broadcast_address := none, host_range_start := none,
    host_range_end := none, usable_hosts := 0,
    dhcp_range_start := none, dhcp_range_end := none,
    default_gateway := none, needs_nat := false }

/-- C4: the host-range claim fails at prefix length 0 (first conjunct,
at 172.16.0.0/0, class B, where the claim demands a defined host range
but the code aborts); on every returned result the two host-range
fields are present exactly for classes A/B/C with prefix length not 31
or 32, and then hold `network_address + 1` and `broadcast_address - 1`
as 32-bit values (second conjunct). -/
theorem C4_host_range :
    analyze_network 2886729728 0 = none ∧
    (∀ ip cidr info, ip < 2 ^ 32 → analyze_network ip cidr = some info →
      ((info.host_range_start.isSome ∧ info.host_range_end.isSome) ↔
        ((info.ip_class = 'A' ∨ info.ip_class = 'B' ∨ info.ip_class = 'C') ∧
          cidr ≠ 31 ∧ cidr ≠ 32)) ∧
      (∀ s, info.host_range_start = some s → s = info.network_address + 1) ∧
      (∀ e b, info.host_range_end = some e → info.broadcast_address = some b →
        e = b - 1)) := by
  constructor
  · decide
  · intro ip cidr info hip h
    obtain ⟨hx1, hx2⟩ := analyze_some_bounds h
    rw [analyze_network_eq hip hx1 hx2, Option.some.injEq] at h
    subst h
    dsimp only
    have hcases := ipClassOf_cases (toOctets ip).o0
    by_cases hDE : ipClassOf (toOctets ip).o0 = 'D' ∨ ipClassOf (toOctets ip).o0 = 'E'
    · rcases hDE with hc | hc <;> rw [hc] <;> simp
    · by_cases h30 : 30 < cidr
      · rw [if_pos (Or.inl h30), if_pos (Or.inl h30), if_neg hDE]
        refine ⟨?_, by simp, by simp⟩
        simp only [Option.isSome_none, Bool.false_eq_true, false_and, false_iff]
        rintro ⟨-, hn31, hn32⟩
        omega
      · have hp4 : (4:Nat) ≤ 2 ^ (32 - cidr) := by
          calc (4:Nat) = 2 ^ 2 := by norm_num
            _ ≤ 2 ^ (32 - cidr) := Nat.pow_le_pow_right (by norm_num) (by omega)
        rw [if_neg (by tauto), if_neg (by tauto), if_neg hDE]
        refine ⟨⟨fun _ => ⟨by tauto, by omega, by omega⟩, fun _ => ⟨rfl, rfl⟩⟩,
          ?_, ?_⟩
        · intro s hs
          simp only [Option.some.injEq] at hs
          omega
        · intro e b he hb
          simp only [Option.some.injEq] at he hb
          omega

theorem C4_host_range_witness :
    analyze_network 2886729728 0 = none ∧
    ((info192.host_range_start.isSome ∧ info192.host_range_end.isSome) ↔
      ((info192.ip_class = 'A' ∨ info192.ip_class = 'B' ∨ info192.ip_class = 'C') ∧
        (24:Nat) ≠ 31 ∧ (24:Nat) ≠ 32)) :=
  ⟨C4_host_range.1,
   (C4_host_range.2 3232235776 24 info192 (by decide) (by decide)).1⟩

/-- C5: on every result whose host range is present, the DHCP pool
start is the first host shifted by 9 exactly when the prefix length is
below 25 and is the first host itself otherwise, and the pool end is
the pool start plus 90 with the last octet saturating at 255 instead of
wrapping; when the host range is absent both DHCP fields are absent. -/
theorem C5_dhcp_range (ip cidr : Nat) (info : NetworkInfo)
    (hip : ip < 2 ^ 32) (h : analyze_network ip cidr = some info) :
    (info.host_range_start = none →
      info.dhcp_range_start = none ∧ info.dhcp_range_end = none) ∧
    (∀ s, info.host_range_start = some s →
      (if cidr < 25 then info.dhcp_range_start = some (s + 9)
       else info.dhcp_range_start = some s) ∧
      (∀ d, info.dhcp_range_start = some d →
        info.dhcp_range_end =
          some (if d % 256 + 90 ≤ 255 then d + 90 else d - d % 256 + 255))) := by
  obtain ⟨hx1, hx2⟩ := analyze_some_bounds h
  rw [analyze_network_eq hip hx1 hx2, Option.some.injEq] at h
  subst h
  dsimp only
  by_cases hcond : 30 < cidr ∨ ipClassOf (toOctets ip).o0 = 'D' ∨
      ipClassOf (toOctets ip).o0 = 'E'
  · simp [if_pos hcond]
  · simp only [if_neg hcond]
    refine ⟨by simp, ?_⟩
    intro s hs
    simp only [Option.some.injEq] at hs
    subst hs
    have hNmod : ip / 2 ^ (32 - cidr) * 2 ^ (32 - cidr) % 256 ≤ 252 :=
      net_mod_256_le (by omega)
    by_cases h25 : cidr < 25
    · have hNmod0 : ip / 2 ^ (32 - cidr) * 2 ^ (32 - cidr) % 256 = 0 :=
        mul_pow_mod_256_eq_zero (by omega)
      simp only [if_pos h25, Option.some.injEq]
      refine ⟨by trivial, ?_⟩
      intro d hd
      rw [if_pos (by omega)]
      omega
    · simp only [if_neg h25, Option.some.injEq]
      refine ⟨by trivial, ?_⟩
      intro d hd
      by_cases hsat : d % 256 + 90 ≤ 255
      · rw [if_pos hsat]
        omega
      · rw [if_neg hsat]
        omega

theorem C5_dhcp_range_witness :
    info192.dhcp_range_start = some (3232235777 + 9) := by
  have h := (C5_dhcp_range 3232235776 24 info192 (by decide) (by decide)).2
    3232235777 (by decide)
  simpa using h.1

/-- C6: the network/broadcast claim fails at prefix length 0, where the
code aborts before computing `address & mask` (first conjunct, at
8.8.8.8/0); on every returned result `network_address = ip & mask`,
classes D and E carry no broadcast address, and classes A/B/C carry
`ip | !mask` (second conjunct). -/
theorem C6_network_broadcast :
    analyze_network 134744072 0 = none ∧
    (∀ ip cidr info, ip < 2 ^ 32 → analyze_network ip cidr = some info →
      info.network_address = ip &&& info.subnet_mask ∧
      (info.ip_class = 'D' ∨ info.ip_class = 'E' →
        info.broadcast_address = none) ∧
      (info.ip_class ≠ 'D' → info.ip_class ≠ 'E' →
        info.broadcast_address = some (ip ||| notU32 info.subnet_mask))) := by
  constructor
  · decide
  · intro ip cidr info hip h
    obtain ⟨hx1, hx2⟩ := analyze_some_bounds h
    rw [analyze_network_eq hip hx1 hx2, Option.some.injEq] at h
    subst h
    dsimp only
    refine ⟨(land_mask hip (by omega)).symm, ?_, ?_⟩
    · intro hDE
      rw [if_pos hDE]
    · intro hD hE
      rw [if_neg (by tauto), notU32_mask (show 32 - cidr ≤ 32 by omega),
        lor_ones]

theorem C6_network_broadcast_witness :
    analyze_network 134744072 0 = none ∧
    info192.network_address = 3232235776 &&& info192.subnet_mask :=
  ⟨C6_network_broadcast.1,
   (C6_network_broadcast.2 3232235776 24 info192 (by decide) (by decide)).1⟩

theorem isPrivateOf_iff (a b : Nat) :
    isPrivateOf a b = true ↔
      (a = 10 ∨ (a = 172 ∧ 16 ≤ b ∧ b ≤ 31) ∨ (a = 192 ∧ b = 168)) := by
  rw [isPrivateOf]
  split_ifs <;> simp_all <;> omega

/-- C7: on every returned result the `ip_class` field is determined by
the first octet alone, independent of the prefix length: 1–127 class A,
128–191 B, 192–223 C, 224–239 D, 240–255 E, and first octet 0 falls
through to class E. -/
theorem C7_ip_class (ip cidr : Nat) (info : NetworkInfo)
    (hip : ip < 2 ^ 32) (h : analyze_network ip cidr = some info) :
    info.ip_class =
      if ip / 2 ^ 24 = 0 then 'E'
      else if ip / 2 ^ 24 ≤ 127 then 'A'
      else if ip / 2 ^ 24 ≤ 191 then 'B'
      else if ip / 2 ^ 24 ≤ 223 then 'C'
      else if ip / 2 ^ 24 ≤ 239 then 'D'
      else 'E' := by
  obtain ⟨hx1, hx2⟩ := analyze_some_bounds h
  rw [analyze_network_eq hip hx1 hx2, Option.some.injEq] at h
  subst h
  dsimp only [toOctets]
  rw [show ip / 2 ^ 24 % 256 = ip / 2 ^ 24 from by omega, ipClassOf]
  split_ifs <;> first | rfl | omega

theorem C7_ip_class_witness : info0.ip_class = 'E' := by
  have h := C7_ip_class 66051 8 info0 (by decide) (by decide)
  exact h.trans (by decide)

/-- C8: on every returned result the `is_private` field is true exactly
for the RFC1918 ranges: first octet 10, or first octet 172 with second
octet 16–31, or first octet 192 with second octet 168; everything else,
classes D and E included, is non-private. -/
theorem C8_is_private (ip cidr : Nat) (info : NetworkInfo)
    (hip : ip < 2 ^ 32) (h : analyze_network ip cidr = some info) :
    info.is_private = true ↔
      (ip / 2 ^ 24 = 10 ∨
       (ip / 2 ^ 24 = 172 ∧ 16 ≤ ip / 2 ^ 16 % 256 ∧ ip / 2 ^ 16 % 256 ≤ 31) ∨
       (ip / 2 ^ 24 = 192 ∧ ip / 2 ^ 16 % 256 = 168)) := by
  obtain ⟨hx1, hx2⟩ := analyze_some_bounds h
  rw [analyze_network_eq hip hx1 hx2, Option.some.injEq] at h
  subst h
  dsimp only [toOctets]
  rw [show ip / 2 ^ 24 % 256 = ip / 2 ^ 24 from by omega]
  exact isPrivateOf_iff _ _

theorem C8_is_private_witness : info192.is_private = true :=
  (C8_is_private 3232235776 24 info192 (by decide) (by decide)).mpr
    (by decide)

/-- C9: on every returned result `usable_hosts` equals
`host_range_end - host_range_start + 1` whenever both host-range fields
are present, and equals 0 whenever either is absent. -/
theorem C9_usable_eq_range (ip cidr : Nat) (info : NetworkInfo)
    (hip : ip < 2 ^ 32) (h : analyze_network ip cidr = some info) :
    (∀ s e, info.host_range_start = some s → info.host_range_end = some e →
      info.usable_hosts = e - s + 1) ∧
    ((info.host_range_start = none ∨ info.host_range_end = none) →
      info.usable_hosts = 0) := by
  obtain ⟨hx1, hx2⟩ := analyze_some_bounds h
  rw [analyze_network_eq hip hx1 hx2, Option.some.injEq] at h
  subst h
  dsimp only
  by_cases hDE : ipClassOf (toOctets ip).o0 = 'D' ∨ ipClassOf (toOctets ip).o0 = 'E'
  · simp [if_pos hDE, if_pos (Or.inr hDE : 30 < cidr ∨ _)]
  · by_cases h30 : 30 < cidr
    · simp [if_pos (Or.inl h30 : 30 < cidr ∨ _), if_neg hDE, if_pos h30]
    · have hp4 : (4:Nat) ≤ 2 ^ (32 - cidr) := by
        calc (4:Nat) = 2 ^ 2 := by norm_num
          _ ≤ 2 ^ (32 - cidr) := Nat.pow_le_pow_right (by norm_num) (by omega)
      simp only [if_neg (show ¬(30 < cidr ∨ ipClassOf (toOctets ip).o0 = 'D' ∨
          ipClassOf (toOctets ip).o0 = 'E') from by tauto),
        if_neg hDE, if_neg h30, Option.some.injEq]
      refine ⟨?_, by rintro (hc | hc) <;> simp at hc⟩
      intro s e hs he
      omega

theorem C9_usable_eq_range_witness :
    info192.usable_hosts = 3232236030 - 3232235777 + 1 :=
  (C9_usable_eq_range 3232235776 24 info192 (by decide) (by decide)).1
    3232235777 3232236030 (by decide) (by decide)

/-- C10: on every returned result the five optional fields
`host_range_start`, `host_range_end`, `dhcp_range_start`,
`dhcp_range_end` and `default_gateway` are present or absent
together. -/
theorem C10_optional_fields (ip cidr : Nat) (info : NetworkInfo)
    (hip : ip < 2 ^ 32) (h : analyze_network ip cidr = some info) :
    info.host_range_start.isSome = info.host_range_end.isSome ∧
    info.host_range_start.isSome = info.dhcp_range_start.isSome ∧
    info.host_range_start.isSome = info.dhcp_range_end.isSome ∧
    info.host_range_start.isSome = info.default_gateway.isSome := by
  obtain ⟨hx1, hx2⟩ := analyze_some_bounds h
  rw [analyze_network_eq hip hx1 hx2, Option.some.injEq] at h
  subst h
  dsimp only
  by_cases hcond : 30 < cidr ∨ ipClassOf (toOctets ip).o0 = 'D' ∨
      ipClassOf (toOctets ip).o0 = 'E'
  · simp [if_pos hcond]
  · simp only [if_neg hcond]
    by_cases h25 : cidr < 25 <;> simp [h25]

theorem C10_optional_fields_witness :
    info192.host_range_start.isSome = info192.default_gateway.isSome :=
  (C10_optional_fields 3232235776 24 info192 (by decide) (by decide)).2.2.2

/- Sanity checks mirroring the repository's unit tests. -/

/-- The repository's `test_class_c_network` fixture: 192.168.1.0/24. -/
example : analyze_network 3232235776 24 = some info192 := by decide

/-- The repository's `test_cidr_31` fixture: 192.168.1.0/31 keeps its
broadcast address but loses host range, DHCP range and gateway. -/
example : analyze_network 3232235776 31 = some
    { ip_address := 3232235776, cidr := 31, subnet_mask := 4294967294,
      ip_class := 'C', is_private := true,
      network_address := 3232235776,
      broadcast_address := some 3232235777,
      host_range_start := none, host_range_end := none,
      usable_hosts := 0, dhcp_range_start := none,
      dhcp_range_end := none, default_gateway := none,
      needs_nat := true } := by decide

/-- The repository's `test_cidr_32` fixture: 10.1.1.1/32 is its own
broadcast address. -/
example : analyze_network 167837953 32 = some
    { ip_address := 167837953, cidr := 32, subnet_mask := 4294967295,
      ip_class := 'A', is_private := true,
      network_address := 167837953,
      broadcast_address := some 167837953,
      host_range_start := none, host_range_end := none,
      usable_hosts := 0, dhcp_range_start := none,
      dhcp_range_end := none, default_gateway := none,
      needs_nat := true } := by decide

/-- The repository's `test_class_d_multicast` fixture: 224.0.0.1/4. -/
example : analyze_network 3758096385 4 = some
    { ip_address := 3758096385, cidr := 4, subnet_mask := 4026531840,
      ip_class := 'D', is_private := false,
      network_address := 3758096384,
      broadcast_address := none,
      host_range_start := none, host_range_end := none,
      usable_hosts := 0, dhcp_range_start := none,
      dhcp_range_end := none, default_gateway := none,
      needs_nat := false } := by decide

/-- The repository's `test_smallest_subnet_class_c` fixture:
192.168.1.0/30, where the DHCP pool starts at the first host without
the +9 offset. -/
example : analyze_network 3232235776 30 = some
    { ip_address := 3232235776, cidr := 30, subnet_mask := 4294967292,
      ip_class := 'C', is_private := true,
      network_address := 3232235776,
      broadcast_address := some 3232235779,
      host_range_start := some 3232235777,
      host_range_end := some 3232235778,
      usable_hosts := 2,
      dhcp_range_start := some 3232235777,
      dhcp_range_end := some 3232235867,
      default_gateway := some 3232235777,
      needs_nat := true } := by decide

end Ipv4Exercise
